import Mathlib

set_option maxRecDepth 4000

/-!
Verification of the Kiwiland railway query engine (`src/railway.py`).

The Python class `Railway` stores a directed weighted graph as a dict of
dicts (`routes`, a *class-level* attribute, see `railway.py:39`) and offers
four queries: `get_route_distance`, `find_routes_by_stops`,
`find_routes_by_distance` and `shortest_route`.

Shallow embedding conventions:
* A station is a `Char` (the code uses one-character strings; a `Char` is
  never empty, so the Python `if not origin` ValueError branches for empty
  string arguments are unreachable in this model and are not represented).
* A Python dict is an association list in insertion order; overwriting a
  key keeps its position (as Python dicts do), inserting a fresh key
  appends (`insertKey`, `ensureStation`).
* Python exceptions are an `Except RailErr` result.
* The recursive searches and the `shortest_route` while-loop are embedded
  with an explicit fuel parameter: `none` means the computation did not
  finish within `fuel` steps.  A result that is `none` for *every* fuel is
  a non-terminating run (Python: `RecursionError` or an infinite loop).
* Python's `int(...)` string conversion is embedded as `pyInt`: it strips
  surrounding ASCII whitespace, accepts one optional sign, and accepts
  digit groups separated by single underscores (CPython semantics,
  restricted to ASCII digits/whitespace, which covers all inputs the spec
  discusses).
-/

abbrev Station := Char

/-- Inner dict of `Railway.routes`: destination station to distance, in
insertion order. -/
abbrev Adj := List (Station × Int)

/-- Outer dict of `Railway.routes`: origin station to its adjacency dict. -/
abbrev Graph := List (Station × Adj)

/-- Python exceptions raised by `railway.py` that this model distinguishes. -/
inductive RailErr where
  | valueError
  | keyError
  | indexError
  deriving DecidableEq, Repr

/-- Dict lookup on an adjacency list (first match, as a Python dict). -/
def lookupEdge : Adj → Station → Option Int
  | [], _ => none
  | (k, v) :: rest, s => if k = s then some v else lookupEdge rest s

/-- Dict lookup on the outer routes mapping. -/
def lookupStation : Graph → Station → Option Adj
  | [], _ => none
  | (k, v) :: rest, s => if k = s then some v else lookupStation rest s

/-- `routes[origin][destination]`, `none` when either key is absent
(GraphStore's `edgeDistance` in the spec). -/
def edgeDistance (g : Graph) (o d : Station) : Option Int :=
  match lookupStation g o with
  | none => none
  | some nbrs => lookupEdge nbrs d

/-- ASCII uppercase test, the `match(r'[A-Z]', c)` check of
`railway.py:91`. -/
def isUpperAscii (c : Char) : Bool :=
  'A' ≤ c && c ≤ 'Z'

/-- ASCII decimal digit test. -/
def isPyDigit (c : Char) : Bool :=
  '0' ≤ c && c ≤ '9'

/-- Numeric value of an ASCII digit. -/
def digitVal (c : Char) : Nat :=
  c.toNat - '0'.toNat

/-- ASCII whitespace, as stripped by Python's `int()` and `str.strip()`. -/
def isPySpace (c : Char) : Bool :=
  c = ' ' || c = '\t' || c = '\n' || c = '\r' || c = '\x0b' || c = '\x0c'

/-- Digits of a Python int literal after the first digit: digits with
single underscores allowed between digits (`acc` is the value so far). -/
def pyIntCore : Nat → List Char → Option Nat
  | acc, [] => some acc
  | acc, c :: rest =>
    if isPyDigit c then pyIntCore (10 * acc + digitVal c) rest
    else if c = '_' then
      match rest with
      | [] => none
      | d :: rest2 =>
        if isPyDigit d then pyIntCore (10 * acc + digitVal d) rest2 else none
    else none

/-- Unsigned magnitude of a Python int literal: at least one digit, then
`pyIntCore`. -/
def pyIntMag : List Char → Option Nat
  | [] => none
  | c :: rest => if isPyDigit c then pyIntCore (digitVal c) rest else none

/-- Strip ASCII whitespace from both ends of a character list. -/
def stripChars (l : List Char) : List Char :=
  (((l.dropWhile isPySpace).reverse).dropWhile isPySpace).reverse

/-- Python's `int(s)` on a string `s` (as a `Char` list): surrounding
whitespace stripped, one optional sign, then a digit group; `none` models
the `ValueError` that `int` raises on malformed input. -/
def pyInt (cs : List Char) : Option Int :=
  match stripChars cs with
  | '+' :: rest => (pyIntMag rest).map (fun n => (n : Int))
  | '-' :: rest => (pyIntMag rest).map (fun n => -(n : Int))
  | other => (pyIntMag other).map (fun n => (n : Int))

/-- Body of `Railway.validate_and_parse_route` (`railway.py:84-94`) on a
present string.  Exactly as in the source, the length check comes first
(`len(route) < 3`, which also covers the falsy empty string), then
`int(route[2:])` (which may raise `ValueError`), and the `[A-Z]` check on
the two station characters comes last. -/
def parse_route_str (s : String) : Except RailErr (Station × Station × Int) :=
  match s.toList with
  | c0 :: c1 :: c2 :: rest =>
    match pyInt (c2 :: rest) with
    | none => .error .valueError
    | some d =>
      if isUpperAscii c0 && isUpperAscii c1 then .ok (c0, c1, d)
      else .error .valueError
  | _ => .error .valueError

/-- `Railway.validate_and_parse_route` (`railway.py:59-94`).  The argument
is an `Option String` because the tests pass `None` (`not route` raises). -/
def validate_and_parse_route (route : Option String) : Except RailErr (Station × Station × Int) :=
  match route with
  | none => .error .valueError
  | some s => parse_route_str s

/-- Set `nbrs[d] = w` in a Python dict: overwrite in place if the key
exists, append otherwise. -/
def insertKey : Adj → Station → Int → Adj
  | [], d, w => [(d, w)]
  | (k, v) :: rest, d, w =>
    if k = d then (d, w) :: rest else (k, v) :: insertKey rest d w

/-- `if s not in self.routes: self.routes[s] = dict()` (`railway.py:106-109`). -/
def ensureStation (g : Graph) (s : Station) : Graph :=
  if (lookupStation g s).isSome then g else g ++ [(s, [])]

/-- Rewrite the adjacency dict of `o` to `insertKey · d w` (the station `o`
is already present when this is called). -/
def updateStation : Graph → Station → Station → Int → Graph
  | [], _, _, _ => []
  | (k, nbrs) :: rest, o, d, w =>
    if k = o then (k, insertKey nbrs d w) :: rest
    else (k, nbrs) :: updateStation rest o d w

/-- One iteration of the `add_routes` loop body after parsing
(`railway.py:106-110`): create outer entries for both endpoints if absent,
then set `routes[origin][destination] = distance`. -/
def insertRoute (g : Graph) (o d : Station) (w : Int) : Graph :=
  updateStation (ensureStation (ensureStation g o) d) o d w

/-- `Railway.add_routes` (`railway.py:96-110`), threading the graph that
the Python code reaches through the class attribute `self.routes`.  A
parse failure aborts the batch (the Python exception propagates). -/
def add_routes (g : Graph) : List String → Except RailErr Graph
  | [] => .ok g
  | r :: rest =>
    match validate_and_parse_route (some r) with
    | .error e => .error e
    | .ok (o, d, w) => add_routes (insertRoute g o d w) rest

/-- Python `str.strip()`. -/
def stripString (s : String) : String :=
  String.mk (stripChars s.toList)

/-- `Railway.__init__` on a list argument (`railway.py:42-57`): strip each
token, then `add_routes`.  The first parameter is the *current value of the
class attribute `Railway.routes`*: because `routes = {}` is declared on the
class (`railway.py:39`) and only ever mutated (never rebound), every
instance reads and writes this one shared dict, so a second construction
continues from the graph the first construction built. -/
def railway_init (shared : Graph) (routes : List String) : Except RailErr Graph :=
  add_routes shared (routes.map stripString)

/-- `Railway.get_route_distance` (`railway.py:112-154`).  The walk is
`origin` followed by `destinations` (Python varargs; the tests never pass
zero destinations, where Python would raise `IndexError` at
`destinations[0]`).  Note the faithful `if not next_stop_distance` test of
`railway.py:150`: a recursive total of `0` is treated like `None`. -/
def get_route_distance (g : Graph) (origin : Station) (destinations : List Station) :
    Except RailErr (Option Int) :=
  match destinations with
  | [] => .error .indexError
  | destination :: rest =>
    match lookupStation g origin with
    | none => .error .keyError
    | some nbrs =>
      match lookupEdge nbrs destination with
      | none => .ok none
      | some distance =>
        match rest with
        | [] => .ok (some distance)
        | _ :: _ =>
          match get_route_distance g destination rest with
          | .error e => .error e
          | .ok none => .ok none
          | .ok (some nd) =>
            if nd = 0 then .ok none else .ok (some (distance + nd))

/-- The reference map `AB5, BC4, CD8, DC8, DE6, AD5, CE2, EB3, AE7` as the
dict-of-dicts that `add_routes` builds from it (insertion order). -/
def refMap : Graph :=
  [('A', [('B', 5), ('D', 5), ('E', 7)]),
   ('B', [('C', 4)]),
   ('C', [('D', 8), ('E', 2)]),
   ('D', [('C', 8), ('E', 6)]),
   ('E', [('B', 3)])]

/-- Sanity link between the literal `refMap` and the constructor run on the
reference token list. -/
lemma refMap_built :
    railway_init [] ["AB5", "BC4", "CD8", "DC8", "DE6", "AD5", "CE2", "EB3", "AE7"] =
      .ok refMap := by rfl

/-- The two values of `Railway.FindModes` (`railway.py:40`). -/
inductive FindMode where
  | max
  | exact
  deriving DecidableEq, Repr

/-- Result type of the two path-enumeration queries: each route is the
station list together with its total distance.  (Python represents a
stop-bounded result as the pair `(path, distance)` and a distance-bounded
result as the flat list `[s1, ..., sk, distance]`; both carry exactly a
station list and a trailing total, which is this pair.) -/
abbrev RouteList := List (List Station × Int)

/-- The `for next_stop in self.routes[origin]` loop of
`railway.py:213-221`: run `rec` (the recursive search one fuel level down,
at stop budget `stops - 1`) on each neighbor, prepend `origin` to each
returned path and add the connecting edge's weight to each returned total,
concatenating the per-neighbor results in iteration order.  `none` (fuel
exhaustion) in any sub-search aborts the whole call, as a Python
`RecursionError` would. -/
def findStopsGo (rec : Station → Option (Except RailErr RouteList)) (origin : Station) :
    Adj → Option (Except RailErr RouteList)
  | [] => some (.ok [])
  | (v, w) :: rest =>
    match rec v with
    | none => none
    | some (.error e) => some (.error e)
    | some (.ok subs) =>
      match findStopsGo rec origin rest with
      | none => none
      | some (.error e) => some (.error e)
      | some (.ok rs) =>
        some (.ok ((subs.map (fun pr => (origin :: pr.1, w + pr.2))) ++ rs))

/-- Lines 210-221 of `railway.py`: the part of `find_routes_by_stops` after
the direct-edge block — return `[]` when `stops != 1` and the origin has no
outgoing edges, otherwise run the neighbor loop. -/
def findStopsRest (rec : Station → Option (Except RailErr RouteList)) (origin : Station)
    (stops : Int) (nbrs : Adj) : Option (Except RailErr RouteList) :=
  if stops ≠ 1 ∧ nbrs = [] then some (.ok [])
  else findStopsGo rec origin nbrs

/-- `Railway.find_routes_by_stops` (`railway.py:156-221`) with explicit
fuel (recursion depth).  The stop budget is an `Int`: the Python code
freely recurses into zero and negative budgets.  Faithful to the source:
with `mode = max` and `stops >= 1`, or `mode = exact` and `stops == 1`, a
direct edge to the destination returns that single route for the whole
call (`return routes` at `railway.py:206`); in exact mode a missing direct
edge at `stops == 1` returns `[]`; otherwise the neighbor loop recurses
with `stops - 1`.  The `ValueError` branches for empty stations or a
non-integer `stops` argument are unrepresentable here (`Char`/`Int`
arguments); an unknown origin is `KeyError` (`railway.py:197-198`). -/
def find_routes_by_stops : Nat → Graph → Station → Station → Int → FindMode →
    Option (Except RailErr RouteList)
  | 0, _, _, _, _, _ => none
  | fuel + 1, g, origin, destination, stops, mode =>
    match lookupStation g origin with
    | none => some (.error .keyError)
    | some nbrs =>
      if (mode = .max ∧ 1 ≤ stops) ∨ (mode = .exact ∧ stops = 1) then
        match lookupEdge nbrs destination with
        | some w => some (.ok [([origin, destination], w)])
        | none =>
          if mode = .exact then some (.ok [])
          else
            findStopsRest (fun v => find_routes_by_stops fuel g v destination (stops - 1) mode)
              origin stops nbrs
      else
        findStopsRest (fun v => find_routes_by_stops fuel g v destination (stops - 1) mode)
          origin stops nbrs

/-- The `for stop in self.routes[origin]` loop of `railway.py:264-277`:
for each neighbor `stop` at distance `distance`, record the direct 1-edge
route when `stop == destination and distance < max_distance`, and when
`max_distance - distance > 0` recurse (`rec`, one fuel level down) and
prepend `origin` / add `distance` to each sub-route's trailing total
(`route[-1] += distance`).  The `if not subroute: continue` guard of
`railway.py:272` is dead code (sub-results are never empty lists) and has
no counterpart here. -/
def findDistGo (rec : Station → Int → Option (Except RailErr RouteList))
    (origin destination : Station) (maxD : Int) :
    Adj → Option (Except RailErr RouteList)
  | [] => some (.ok [])
  | (stop, distance) :: rest =>
    let direct : RouteList :=
      if stop = destination ∧ distance < maxD then [([origin, stop], distance)] else []
    let sub : Option (Except RailErr RouteList) :=
      if 0 < maxD - distance then
        match rec stop (maxD - distance) with
        | none => none
        | some (.error e) => some (.error e)
        | some (.ok subs) =>
          some (.ok (subs.map (fun pr => (origin :: pr.1, pr.2 + distance))))
      else some (.ok [])
    match sub with
    | none => none
    | some (.error e) => some (.error e)
    | some (.ok s) =>
      match findDistGo rec origin destination maxD rest with
      | none => none
      | some (.error e) => some (.error e)
      | some (.ok rs) => some (.ok (direct ++ s ++ rs))

/-- `Railway.find_routes_by_distance` (`railway.py:223-278`) with explicit
fuel.  An unknown origin is `KeyError`; the `ValueError` argument checks
are unrepresentable with typed arguments. -/
def find_routes_by_distance : Nat → Graph → Station → Station → Int →
    Option (Except RailErr RouteList)
  | 0, _, _, _, _ => none
  | fuel + 1, g, origin, destination, maxD =>
    match lookupStation g origin with
    | none => some (.error .keyError)
    | some nbrs =>
      findDistGo (fun v m => find_routes_by_distance fuel g v destination m)
        origin destination maxD nbrs

/-- The best-known shortest distance of `shortest_route`; `none` is the
`float('inf')` sentinel. -/
abbrev Best := Option Int

/-- `distance < shortest_distance` where `shortest_distance` may be
infinity. -/
def bestLt (distance : Int) : Best → Bool
  | none => true
  | some b => distance < b

/-- `min(shortest_distance, distance)` where `shortest_distance` may be
infinity. -/
def bestMin (b : Best) (distance : Int) : Best :=
  match b with
  | none => some distance
  | some x => some (min x distance)

/-- A frontier entry of `shortest_route`: `(o, d, distance_to_origin)` —
an edge `o → d` to relax, with the accumulated distance from the query
origin to `o`. -/
abbrev Triple := Station × Station × Int

/-- The `while len(nodes_to_visit) > 0` loop of `railway.py:316-323`, with
explicit fuel (`none` = the loop did not finish within `fuel` iterations).
Faithful details: `pop()` takes the *last* element; the expansion
`for stop in self.routes[d]: nodes_to_visit.extend([(d, stop, distance) for stop in self.routes[d]])`
is a nested loop that appends the full neighbor block once per neighbor
(so `|routes[d]|` copies of it); the best-known bound is updated only when
`distance < shortest_distance` and `d == destination`. -/
def shortestLoop : Nat → Graph → Station → List Triple → Best →
    Option (Except RailErr Best)
  | 0, _, _, _, _ => none
  | fuel + 1, g, destination, frontier, best =>
    match frontier.getLast? with
    | none => some (.ok best)
    | some (o, d, acc) =>
      let rest := frontier.dropLast
      match edgeDistance g o d with
      | none => some (.error .keyError)
      | some w =>
        let distance := w + acc
        if bestLt distance best then
          match lookupStation g d with
          | none => some (.error .keyError)
          | some nbrs =>
            let pushed := (nbrs.map (fun _ => nbrs.map (fun q => (d, q.1, distance)))).flatten
            let best2 := if d = destination then bestMin best distance else best
            shortestLoop fuel g destination (rest ++ pushed) best2
        else
          shortestLoop fuel g destination rest best

/-- `Railway.shortest_route` (`railway.py:280-325`) with explicit fuel.
Result `some (.ok none)` is the `float('inf')` return ("unreachable"),
`some (.ok (some n))` a finite shortest distance, `none` a run that does
not finish in `fuel` loop iterations.  The initial best-known distance is
the direct edge if present (`railway.py:312-313`), and the frontier is
seeded with `(origin, stop, 0)` for each neighbor of the origin. -/
def shortest_route (fuel : Nat) (g : Graph) (origin destination : Station) :
    Option (Except RailErr Best) :=
  match lookupStation g origin with
  | none => some (.error .keyError)
  | some nbrs =>
    shortestLoop fuel g destination (nbrs.map (fun q => (origin, q.1, 0)))
      (lookupEdge nbrs destination)

/-- Parity with the repository's own test suites
(`railway_sample_data_test.py`, `railway_test.py`): the ten reference
outputs the embedded code must reproduce. -/
lemma repo_test_parity :
    get_route_distance refMap 'A' ['B', 'C'] = .ok (some 9) ∧
    get_route_distance refMap 'A' ['D'] = .ok (some 5) ∧
    get_route_distance refMap 'A' ['D', 'C'] = .ok (some 13) ∧
    get_route_distance refMap 'A' ['E', 'B', 'C', 'D'] = .ok (some 22) ∧
    get_route_distance refMap 'A' ['E', 'D'] = .ok none ∧
    (find_routes_by_stops 20 refMap 'C' 'C' 3 .max).map (Except.map List.length) =
      some (.ok 2) ∧
    (find_routes_by_stops 20 refMap 'A' 'C' 4 .exact).map (Except.map List.length) =
      some (.ok 3) ∧
    shortest_route 200 refMap 'A' 'C' = some (.ok (some 9)) ∧
    shortest_route 200 refMap 'B' 'B' = some (.ok (some 9)) ∧
    (find_routes_by_distance 40 refMap 'C' 'C' 30).map (Except.map List.length) =
      some (.ok 7) ∧
    shortest_route 50 [('A', [('B', 1), ('C', 2)]), ('B', []), ('C', [('A', 4), ('D', 1)]),
      ('D', [('A', 1)])] 'B' 'C' = some (.ok none) := by
  exact ⟨rfl, rfl, rfl, rfl, rfl, by rfl, by rfl, by rfl, by rfl, by rfl, by rfl⟩

/-! ### Unfolding lemmas -/

/-- Unfolding of `find_routes_by_stops` at positive fuel once the origin's
adjacency dict is known. -/
lemma find_stops_eq (fuel : Nat) (g : Graph) (o d : Station) (stops : Int) (mode : FindMode)
    (nbrs : Adj) (hs : lookupStation g o = some nbrs) :
    find_routes_by_stops (fuel + 1) g o d stops mode =
      if (mode = .max ∧ 1 ≤ stops) ∨ (mode = .exact ∧ stops = 1) then
        match lookupEdge nbrs d with
        | some w => some (.ok [([o, d], w)])
        | none =>
          if mode = .exact then some (.ok [])
          else
            findStopsRest (fun v => find_routes_by_stops fuel g v d (stops - 1) mode)
              o stops nbrs
      else
        findStopsRest (fun v => find_routes_by_stops fuel g v d (stops - 1) mode)
          o stops nbrs := by
  simp only [find_routes_by_stops, hs]

/-- Unfolding of `find_routes_by_distance` at positive fuel once the
origin's adjacency dict is known. -/
lemma find_dist_eq (fuel : Nat) (g : Graph) (o d : Station) (maxD : Int)
    (nbrs : Adj) (hs : lookupStation g o = some nbrs) :
    find_routes_by_distance (fuel + 1) g o d maxD =
      findDistGo (fun v m => find_routes_by_distance fuel g v d m) o d maxD nbrs := by
  simp only [find_routes_by_distance, hs]

/-! ### C4 — `get_route_distance` and zero distances -/

/-- Graph built from `['AB1', 'BC0']`: every consecutive pair of the walk
A, B, C has an edge, and the tail edge B→C has the (parser-legal)
distance 0. -/
def gZero : Graph := [('A', [('B', 1)]), ('B', [('C', 0)]), ('C', [])]

/-- C4: the claim says `get_route_distance` returns the sum whenever every
consecutive pair has an edge, *including when some edge or partial sum is
0*, and returns `None` exactly when some pair has no edge.  On `AB1, BC0`
both pairs of A, B, C have edges (the tail evaluates to `0` on its own),
yet the full walk returns `None`: the `if not next_stop_distance` test of
`railway.py:150` treats the `0` tail total as "no route", contradicting the
function's own docstring ("None if the route does not exist"). -/
theorem claimC4 :
    edgeDistance gZero 'A' 'B' = some 1 ∧
    edgeDistance gZero 'B' 'C' = some 0 ∧
    get_route_distance gZero 'B' ['C'] = .ok (some 0) ∧
    get_route_distance gZero 'A' ['B', 'C'] = .ok none :=
  ⟨rfl, rfl, rfl, rfl⟩

/-! ### C2 — the direct-edge early exit of `find_routes_by_stops` -/

/-- Graph built from `['AB1', 'BC1', 'AC1']`: besides the direct edge
A→C there is a second walk A→B→C of 2 edges. -/
def gTri : Graph := [('A', [('B', 1), ('C', 1)]), ('B', [('C', 1)]), ('C', [])]

/-- C2 counterexample: with stop bound 2 in AtMost mode, the claim says the
2-edge walk A→B→C is returned alongside the direct edge.  The code returns
*only* the direct edge: `return routes` at `railway.py:206` exits the whole
call as soon as a direct edge is accepted. -/
theorem claimC2_counterexample :
    edgeDistance gTri 'A' 'B' = some 1 ∧
    edgeDistance gTri 'B' 'C' = some 1 ∧
    find_routes_by_stops 5 gTri 'A' 'C' 2 .max = some (.ok [(['A', 'C'], 1)]) :=
  ⟨rfl, rfl, rfl⟩

/-- C2 (amended): in AtMost mode, whenever a direct edge origin→destination
exists and the stop bound is at least 1, `find_routes_by_stops` returns
exactly the one-element list holding that direct 1-edge route — accepting
the direct hop *is* an early exit for the entire call, and no other walk is
returned by it.  (Deeper walks survive only inside recursive sub-calls
whose current origin has no direct edge to the destination.) -/
theorem claimC2 (g : Graph) (o d : Station) (stops : Int) (fuel : Nat) (nbrs : Adj) (w : Int)
    (hs : lookupStation g o = some nbrs) (he : lookupEdge nbrs d = some w)
    (h1 : 1 ≤ stops) :
    find_routes_by_stops (fuel + 1) g o d stops .max = some (.ok [([o, d], w)]) := by
  rw [find_stops_eq fuel g o d stops .max nbrs hs, if_pos (Or.inl ⟨rfl, h1⟩), he]

/-- C2 witness: the amended theorem at a concrete input (reference map,
origin A, destination B, stop bound 5). -/
theorem claimC2_witness :
    find_routes_by_stops 3 refMap 'A' 'B' 5 .max = some (.ok [(['A', 'B'], 5)]) :=
  claimC2 refMap 'A' 'B' 5 2 [('B', 5), ('D', 5), ('E', 7)] 5 rfl rfl (by decide)

/-! ### C5 — `validate_and_parse_route` -/

/-- C5 counterexample: the claim says a negative distance such as `"AB-5"`
raises `MalformedRouteError`.  It does not: `int(route[2:])` accepts an
optional sign, so the token parses to `('A', 'B', -5)`. -/
theorem claimC5_counterexample :
    validate_and_parse_route (some "AB-5") = .ok ('A', 'B', -5) := by rfl

/-- C5 (amended): parsing succeeds, returning the first two characters and
the parsed value, exactly when the token has at least 3 characters, its
first two characters are uppercase ASCII letters, and the remaining
characters parse under Python `int` semantics (surrounding whitespace,
one optional sign, digit groups with single underscores) — so a negative
distance such as `"AB-5"` is accepted with a negative value, not rejected;
every other token (and the absent token `None`) raises `ValueError`. -/
theorem claimC5 :
    validate_and_parse_route none = .error .valueError ∧
    ∀ (s : String) (o d : Station) (n : Int),
      validate_and_parse_route (some s) = .ok (o, d, n) ↔
        ∃ c2 rest, s.toList = o :: d :: c2 :: rest ∧ isUpperAscii o = true ∧
          isUpperAscii d = true ∧ pyInt (c2 :: rest) = some n := by
  refine ⟨rfl, ?_⟩
  intro s o d n
  show parse_route_str s = .ok (o, d, n) ↔ _
  constructor
  · intro h
    rcases hls : s.data with _ | ⟨c0, _ | ⟨c1, _ | ⟨c2, rest⟩⟩⟩
    · simp [parse_route_str, String.toList, hls] at h
    · simp [parse_route_str, String.toList, hls] at h
    · simp [parse_route_str, String.toList, hls] at h
    · simp only [parse_route_str, String.toList, hls] at h
      rcases hpi : pyInt (c2 :: rest) with _ | v <;> rw [hpi] at h
      · simp at h
      · by_cases hu0 : isUpperAscii c0 = true
        · by_cases hu1 : isUpperAscii c1 = true
          · obtain ⟨h0, h1, h2⟩ : c0 = o ∧ c1 = d ∧ v = n := by
              simpa [hu0, hu1] using h
            subst h0; subst h1; subst h2
            exact ⟨c2, rest, hls, hu0, hu1, hpi⟩
          · simp [hu0, hu1] at h
        · simp [hu0] at h
  · rintro ⟨c2, rest, hls, ho, hd, hpi⟩
    have hls2 : s.data = o :: d :: c2 :: rest := hls
    simp only [parse_route_str, String.toList, hls2, hpi, ho, hd]
    simp

/-- C5 witness: the amended characterization applied at the concrete token
`"AE5"` (the repository's own positive test case). -/
theorem claimC5_witness :
    validate_and_parse_route (some "AE5") = .ok ('A', 'E', 5) :=
  (claimC5.2 "AE5" 'A' 'E' 5).mpr ⟨'5', [], by decide, by decide, by decide, by decide⟩

/-! ### C6 — the class-level `routes` mapping -/

/-- Lookup in an appended dict: the left part wins. -/
lemma lookupStation_append (g1 g2 : Graph) (s : Station) :
    lookupStation (g1 ++ g2) s =
      match lookupStation g1 s with
      | some v => some v
      | none => lookupStation g2 s := by
  induction g1 with
  | nil => simp [lookupStation]
  | cons p t ih =>
    obtain ⟨k, v⟩ := p
    simp only [List.cons_append, lookupStation]
    by_cases hk : k = s
    · simp [hk]
    · simp [hk, ih]

/-- `ensureStation` never changes any edge distance: it only adds an empty
adjacency dict for a previously unknown key. -/
lemma edgeDistance_ensure (g : Graph) (t o d : Station) :
    edgeDistance (ensureStation g t) o d = edgeDistance g o d := by
  unfold ensureStation
  by_cases hs : (lookupStation g t).isSome
  · rw [if_pos hs]
  · rw [if_neg hs]
    unfold edgeDistance
    rw [lookupStation_append]
    cases h1 : lookupStation g o with
    | some v => rfl
    | none =>
      simp only [lookupStation]
      by_cases ht : t = o
      · simp [ht, lookupEdge]
      · simp [ht]

/-- `ensureStation` keeps every existing outer key. -/
lemma lookupStation_ensure_isSome (g : Graph) (t s : Station)
    (h : (lookupStation g s).isSome) : (lookupStation (ensureStation g t) s).isSome := by
  unfold ensureStation
  by_cases hs : (lookupStation g t).isSome
  · rw [if_pos hs]; exact h
  · rw [if_neg hs, lookupStation_append]
    cases h1 : lookupStation g s with
    | some v => simp
    | none => rw [h1] at h; simp at h

/-- `updateStation` at `o` does not touch the entry of any other key. -/
lemma lookupStation_update_ne (g : Graph) (o d : Station) (w : Int) (s : Station)
    (h : s ≠ o) : lookupStation (updateStation g o d w) s = lookupStation g s := by
  induction g with
  | nil => rfl
  | cons p t ih =>
    obtain ⟨k, v⟩ := p
    simp only [updateStation]
    by_cases hk : k = o
    · subst hk
      simp only [if_pos rfl, lookupStation]
      rw [if_neg (fun he => h he.symm), if_neg (fun he => h he.symm)]
    · rw [if_neg hk]
      simp only [lookupStation]
      by_cases hks : k = s
      · rw [if_pos hks, if_pos hks]
      · rw [if_neg hks, if_neg hks, ih]

/-- `updateStation` at `o` rewrites exactly the entry of `o` (when present). -/
lemma lookupStation_update_self (g : Graph) (o d : Station) (w : Int) :
    lookupStation (updateStation g o d w) o =
      (lookupStation g o).map (fun nbrs => insertKey nbrs d w) := by
  induction g with
  | nil => rfl
  | cons p t ih =>
    obtain ⟨k, v⟩ := p
    simp only [updateStation]
    by_cases hk : k = o
    · subst hk
      simp [lookupStation]
    · rw [if_neg hk]
      simp only [lookupStation]
      rw [if_neg hk, if_neg hk, ih]

/-- Overwriting one key of an adjacency dict leaves every other key's
lookup unchanged. -/
lemma lookupEdge_insertKey_ne (nbrs : Adj) (d0 : Station) (w0 : Int) (d : Station)
    (h : d ≠ d0) : lookupEdge (insertKey nbrs d0 w0) d = lookupEdge nbrs d := by
  induction nbrs with
  | nil =>
    simp only [insertKey, lookupEdge]
    rw [if_neg (fun he => h he.symm)]
  | cons p t ih =>
    obtain ⟨k, v⟩ := p
    simp only [insertKey]
    by_cases hk : k = d0
    · subst hk
      simp only [if_pos rfl, lookupEdge]
      rw [if_neg (fun he => h he.symm), if_neg (fun he => h he.symm)]
    · rw [if_neg hk]
      simp only [lookupEdge]
      by_cases hkd : k = d
      · rw [if_pos hkd, if_pos hkd]
      · rw [if_neg hkd, if_neg hkd, ih]

/-- Frame property of one `insertRoute`: only the ordered pair being
inserted can change its edge distance. -/
lemma edgeDistance_insertRoute_frame (g : Graph) (o0 d0 : Station) (w0 : Int)
    (o d : Station) (h : o ≠ o0 ∨ d ≠ d0) :
    edgeDistance (insertRoute g o0 d0 w0) o d = edgeDistance g o d := by
  unfold insertRoute
  have hens : edgeDistance (ensureStation (ensureStation g o0) d0) o d = edgeDistance g o d := by
    rw [edgeDistance_ensure, edgeDistance_ensure]
  by_cases ho : o = o0
  · subst ho
    rcases h with h | h
    · exact absurd rfl h
    · unfold edgeDistance
      rw [lookupStation_update_self]
      cases h1 : lookupStation (ensureStation (ensureStation g o) d0) o with
      | none =>
        unfold edgeDistance at hens
        rw [h1] at hens
        simp only [Option.map_none']
        exact hens
      | some nbrs =>
        unfold edgeDistance at hens
        rw [h1] at hens
        simp only [Option.map_some']
        rw [lookupEdge_insertKey_ne _ _ _ _ h]
        exact hens
  · unfold edgeDistance
    rw [lookupStation_update_ne _ _ _ _ _ ho]
    unfold edgeDistance at hens
    exact hens

/-- One `insertRoute` keeps every existing outer key. -/
lemma lookupStation_insertRoute_isSome (g : Graph) (o0 d0 : Station) (w0 : Int)
    (s : Station) (h : (lookupStation g s).isSome) :
    (lookupStation (insertRoute g o0 d0 w0) s).isSome := by
  unfold insertRoute
  have h2 : (lookupStation (ensureStation (ensureStation g o0) d0) s).isSome :=
    lookupStation_ensure_isSome _ _ _ (lookupStation_ensure_isSome _ _ _ h)
  by_cases hs : s = o0
  · subst hs
    rw [lookupStation_update_self]
    cases h1 : lookupStation (ensureStation (ensureStation g s) d0) s with
    | none => rw [h1] at h2; simp at h2
    | some nbrs => simp
  · rw [lookupStation_update_ne _ _ _ _ _ hs]
    exact h2

/-- C6 counterexample: the claim says a second `Railway` construction
leaves the first instance's graph unchanged and that neither instance
observes the other's edges.  Because `routes = {}` is a class attribute
(`railway.py:39`), the second construction continues from the dict the
first one filled: constructing `Railway(['CD2'])` after `Railway(['AB1'])`
yields a shared graph in which the second instance sees the first's edge
A→B, and both instances (they alias the same dict) see C→D, which the
first batch never inserted. -/
theorem claimC6_counterexample :
    railway_init [] ["AB1"] = .ok [('A', [('B', 1)]), ('B', [])] ∧
    railway_init [('A', [('B', 1)]), ('B', [])] ["CD2"] =
      .ok [('A', [('B', 1)]), ('B', []), ('C', [('D', 2)]), ('D', [])] ∧
    edgeDistance [('A', [('B', 1)]), ('B', []), ('C', [('D', 2)]), ('D', [])] 'A' 'B' = some 1 ∧
    edgeDistance [('A', [('B', 1)]), ('B', [])] 'C' 'D' = none ∧
    edgeDistance [('A', [('B', 1)]), ('B', []), ('C', [('D', 2)]), ('D', [])] 'C' 'D' = some 2 :=
  ⟨rfl, rfl, rfl, rfl, rfl⟩

/-- C6 (amended): `Railway.routes` is one class-level dict shared by every
instance, and construction only extends it: a successful `add_routes` run
keeps every station that was already in the shared graph, and an ordered
pair's edge distance changes only if some token of the batch parses to
exactly that pair — so all edges of the earlier instance survive (unless
overwritten pair-for-pair) and are observed by the later instance, which
reads the same dict. -/
theorem claimC6 (g : Graph) (rl : List String) (g2 : Graph)
    (h : add_routes g rl = .ok g2) :
    (∀ s, (lookupStation g s).isSome → (lookupStation g2 s).isSome) ∧
    (∀ o d, edgeDistance g2 o d ≠ edgeDistance g o d →
      ∃ r ∈ rl, ∃ w : Int, validate_and_parse_route (some r) = .ok (o, d, w)) := by
  induction rl generalizing g with
  | nil =>
    simp only [add_routes] at h
    obtain rfl : g = g2 := by simpa using h
    exact ⟨fun s hs => hs, fun o d hne => absurd rfl hne⟩
  | cons r rest ih =>
    simp only [add_routes] at h
    cases hv : validate_and_parse_route (some r) with
    | error e => rw [hv] at h; simp at h
    | ok triple =>
      obtain ⟨o0, d0, w0⟩ := triple
      rw [hv] at h
      obtain ⟨P1, P2⟩ := ih (insertRoute g o0 d0 w0) h
      constructor
      · intro s hs
        exact P1 s (lookupStation_insertRoute_isSome _ _ _ _ _ hs)
      · intro o d hne
        by_cases hx : edgeDistance (insertRoute g o0 d0 w0) o d = edgeDistance g o d
        · have hne2 : edgeDistance g2 o d ≠ edgeDistance (insertRoute g o0 d0 w0) o d := by
            rw [hx]; exact hne
          obtain ⟨r2, hr2, w2, hw2⟩ := P2 o d hne2
          exact ⟨r2, List.mem_cons_of_mem _ hr2, w2, hw2⟩
        · by_cases ho : o = o0
          · by_cases hd : d = d0
            · subst ho; subst hd
              exact ⟨r, List.mem_cons_self _ _, w0, hv⟩
            · exact absurd (edgeDistance_insertRoute_frame g o0 d0 w0 o d (Or.inr hd)) hx
          · exact absurd (edgeDistance_insertRoute_frame g o0 d0 w0 o d (Or.inl ho)) hx

/-- C6 witness: the amended theorem applied to the concrete second batch
`["CD2"]` run on the shared graph left by `["AB1"]` — station A survives,
and the only pair whose distance changed is parsed from the batch. -/
theorem claimC6_witness :
    (lookupStation [('A', [('B', 1)]), ('B', []), ('C', [('D', 2)]), ('D', [])] 'A').isSome ∧
    ∃ r ∈ ["CD2"], ∃ w : Int, validate_and_parse_route (some r) = .ok ('C', 'D', w) := by
  have h := claimC6 [('A', [('B', 1)]), ('B', [])] ["CD2"]
    [('A', [('B', 1)]), ('B', []), ('C', [('D', 2)]), ('D', [])] rfl
  exact ⟨h.1 'A' (by decide), h.2 'C' 'D' (by decide)⟩

/-! ### Divergent runs of the two unguarded searches -/

/-- Graph built from `'AA1'`: one station with a positive self-loop. -/
def gLoop : Graph := [('A', [('A', 1)])]

/-- Graph built from `'AA1, BA1'`: all distances positive, stations A and
B both known, and no walk from A to B exists. -/
def gLoopB : Graph := [('A', [('A', 1)]), ('B', [('A', 1)])]

/-- Graph built from `['AB1', 'AC2', 'CA4']` — the cyclic graph named by
claim C3 (and used by the repository's own `railway_test.py`). -/
def gKiwi3 : Graph := [('A', [('B', 1), ('C', 2)]), ('B', []), ('C', [('A', 4)])]

/-- Graph built from `['AB1', 'BC1', 'CB1']`: A has one outgoing edge into
the cycle B↔C, and no edge returns to A. -/
def gCycleBC : Graph := [('A', [('B', 1)]), ('B', [('C', 1)]), ('C', [('B', 1)])]

/-- On `gLoopB` with destination B, the `shortest_route` loop regenerates
its single frontier entry forever: the best-known bound stays infinite, so
every pop re-expands the self-loop A→A. -/
lemma shortestLoop_gLoopB_div : ∀ (fuel : Nat) (k : Int),
    shortestLoop fuel gLoopB 'B' [('A', 'A', k)] none = none := by
  intro fuel
  induction fuel with
  | zero => intro k; rfl
  | succ n ih =>
    intro k
    have step : shortestLoop (n + 1) gLoopB 'B' [('A', 'A', k)] none =
        shortestLoop n gLoopB 'B' [('A', 'A', 1 + k)] none := rfl
    rw [step]
    exact ih (1 + k)

/-- The same divergence on `gLoop` with the never-inserted destination Z. -/
lemma shortestLoop_gLoop_div : ∀ (fuel : Nat) (k : Int),
    shortestLoop fuel gLoop 'Z' [('A', 'A', k)] none = none := by
  intro fuel
  induction fuel with
  | zero => intro k; rfl
  | succ n ih =>
    intro k
    have step : shortestLoop (n + 1) gLoop 'Z' [('A', 'A', k)] none =
        shortestLoop n gLoop 'Z' [('A', 'A', 1 + k)] none := rfl
    rw [step]
    exact ih (1 + k)

/-- On `gLoop` with unknown destination Z, `find_routes_by_stops` recurses
through the self-loop with an ever more negative stop budget: no fuel
suffices once the budget is non-positive. -/
lemma findStops_gLoop_div : ∀ (fuel : Nat) (s : Int), s ≤ 0 →
    find_routes_by_stops fuel gLoop 'A' 'Z' s .max = none := by
  intro fuel
  induction fuel with
  | zero => intro s hs; rfl
  | succ n ih =>
    intro s hs
    rw [find_stops_eq n gLoop 'A' 'Z' s .max [('A', 1)] rfl]
    rw [if_neg (by rintro (⟨-, h1⟩ | ⟨h2, -⟩); exacts [absurd h1 (by omega), FindMode.noConfusion h2])]
    unfold findStopsRest
    rw [if_neg (by rintro ⟨-, h⟩; exact List.noConfusion h)]
    simp only [findStopsGo]
    rw [ih (s - 1) (by omega)]

/-- On `gKiwi3`, both `find_routes_by_stops` calls that the C3 example
reaches with a non-positive stop budget run forever (origins A and C,
destination B, AtMost mode). -/
lemma findStops_gKiwi3_div : ∀ (fuel : Nat) (s : Int), s ≤ 0 →
    find_routes_by_stops fuel gKiwi3 'A' 'B' s .max = none ∧
    find_routes_by_stops fuel gKiwi3 'C' 'B' s .max = none := by
  intro fuel
  induction fuel with
  | zero => exact fun s hs => ⟨rfl, rfl⟩
  | succ n ih =>
    intro s hs
    constructor
    · rw [find_stops_eq n gKiwi3 'A' 'B' s .max [('B', 1), ('C', 2)] rfl]
      rw [if_neg (by rintro (⟨-, h1⟩ | ⟨h2, -⟩); exacts [absurd h1 (by omega), FindMode.noConfusion h2])]
      unfold findStopsRest
      rw [if_neg (by rintro ⟨-, h⟩; exact List.noConfusion h)]
      simp only [findStopsGo]
      have hB : find_routes_by_stops n gKiwi3 'B' 'B' (s - 1) .max = some (.ok []) ∨
          find_routes_by_stops n gKiwi3 'B' 'B' (s - 1) .max = none := by
        cases n with
        | zero => exact Or.inr rfl
        | succ m =>
          left
          rw [find_stops_eq m gKiwi3 'B' 'B' (s - 1) .max [] rfl]
          rw [if_neg (by rintro (⟨-, h1⟩ | ⟨h2, -⟩); exacts [absurd h1 (by omega), FindMode.noConfusion h2])]
          unfold findStopsRest
          rw [if_pos ⟨by omega, rfl⟩]
      rcases hB with hB | hB <;> rw [hB]
      rw [(ih (s - 1) (by omega)).2]
    · rw [find_stops_eq n gKiwi3 'C' 'B' s .max [('A', 4)] rfl]
      rw [if_neg (by rintro (⟨-, h1⟩ | ⟨h2, -⟩); exacts [absurd h1 (by omega), FindMode.noConfusion h2])]
      unfold findStopsRest
      rw [if_neg (by rintro ⟨-, h⟩; exact List.noConfusion h)]
      simp only [findStopsGo]
      rw [(ih (s - 1) (by omega)).1]

/-- On `gCycleBC`, both cycle stations diverge once the stop budget is
non-positive (destination A is never reachable again). -/
lemma findStops_gCycleBC_div : ∀ (fuel : Nat) (s : Int), s ≤ 0 →
    find_routes_by_stops fuel gCycleBC 'B' 'A' s .max = none ∧
    find_routes_by_stops fuel gCycleBC 'C' 'A' s .max = none := by
  intro fuel
  induction fuel with
  | zero => exact fun s hs => ⟨rfl, rfl⟩
  | succ n ih =>
    intro s hs
    constructor
    · rw [find_stops_eq n gCycleBC 'B' 'A' s .max [('C', 1)] rfl]
      rw [if_neg (by rintro (⟨-, h1⟩ | ⟨h2, -⟩); exacts [absurd h1 (by omega), FindMode.noConfusion h2])]
      unfold findStopsRest
      rw [if_neg (by rintro ⟨-, h⟩; exact List.noConfusion h)]
      simp only [findStopsGo]
      rw [(ih (s - 1) (by omega)).2]
    · rw [find_stops_eq n gCycleBC 'C' 'A' s .max [('B', 1)] rfl]
      rw [if_neg (by rintro (⟨-, h1⟩ | ⟨h2, -⟩); exacts [absurd h1 (by omega), FindMode.noConfusion h2])]
      unfold findStopsRest
      rw [if_neg (by rintro ⟨-, h⟩; exact List.noConfusion h)]
      simp only [findStopsGo]
      rw [(ih (s - 1) (by omega)).1]

/-- The AtMost search from A back to A with stop bound 1 on `gCycleBC`
never returns, for any fuel. -/
lemma findStops_gCycleBC_top : ∀ fuel : Nat,
    find_routes_by_stops fuel gCycleBC 'A' 'A' 1 .max = none := by
  intro fuel
  cases fuel with
  | zero => rfl
  | succ n =>
    have step : find_routes_by_stops (n + 1) gCycleBC 'A' 'A' 1 .max =
        (match find_routes_by_stops n gCycleBC 'B' 'A' 0 .max with
         | none => none
         | some (.error e) => some (.error e)
         | some (.ok subs) =>
           some (.ok (subs.map (fun pr => ('A' :: pr.1, 1 + pr.2)) ++ []))) := rfl
    rw [step, (findStops_gCycleBC_div n 0 le_rfl).1]

/-! ### C1 — `shortest_route` -/

/-- C1: on the reference map `shortest_route` does produce 9 for (A, C)
and 9 for the return cycle (B, B), but the claim's universal part is
false on the code: on the positive-distance graph `'AA1, BA1'` with the
known origin A and the known, unreachable destination B the while loop of
`railway.py:316` never terminates (the best-known bound stays infinite and
the A→A self-loop is re-expanded forever), instead of returning the
+infinity sentinel the claim — and the repository's own
`test_shortest_route` for the unreachable case — prescribe. -/
theorem claimC1 :
    (lookupStation gLoopB 'B').isSome = true ∧
    (∀ fuel : Nat, shortest_route fuel gLoopB 'A' 'B' = none) ∧
    shortest_route 200 refMap 'A' 'C' = some (.ok (some 9)) ∧
    shortest_route 200 refMap 'B' 'B' = some (.ok (some 9)) := by
  refine ⟨rfl, ?_, by rfl, by rfl⟩
  intro fuel
  have h0 : shortest_route fuel gLoopB 'A' 'B' =
      shortestLoop fuel gLoopB 'B' [('A', 'A', 0)] none := rfl
  rw [h0]
  exact shortestLoop_gLoopB_div fuel 0

/-! ### C3 — termination of `find_routes_by_stops` -/

/-- C3: the claim says the search always terminates and a branch whose
budget reaches 0 just contributes nothing — naming
`find_routes_by_stops(C, B, 1)` on `AB1, AC2, CA4` as an example.  On
exactly that input the code recurses forever: C's only continuation is A
with budget 0, whose branches recurse through C again with ever more
negative budgets (a Python `RecursionError`), because `railway.py` never
stops the neighbor loop when the budget is exhausted. -/
theorem claimC3 : ∀ fuel : Nat,
    find_routes_by_stops fuel gKiwi3 'C' 'B' 1 .max = none := by
  intro fuel
  cases fuel with
  | zero => rfl
  | succ n =>
    have step : find_routes_by_stops (n + 1) gKiwi3 'C' 'B' 1 .max =
        (match find_routes_by_stops n gKiwi3 'A' 'B' 0 .max with
         | none => none
         | some (.error e) => some (.error e)
         | some (.ok subs) =>
           some (.ok (subs.map (fun pr => ('C' :: pr.1, 4 + pr.2)) ++ []))) := rfl
    rw [step, (findStops_gKiwi3_div n 0 le_rfl).1]

/-! ### C9 — unknown destination across the four query shapes -/

/-- C9: the claim says an unknown destination is never an error: `None`,
`[]`, `[]`, `+infinity` for the four query shapes.  On the one-station
graph `'AA1'` with never-inserted destination Z this holds for
`get_route_distance` (None) and `find_routes_by_distance` ([]), but both
`find_routes_by_stops(A, Z, 1)` and `shortest_route(A, Z)` never return:
the stop search recurses through the self-loop with ever more negative
budgets and the shortest-path loop re-expands the self-loop forever (its
best-known bound can never become finite). -/
theorem claimC9 :
    get_route_distance gLoop 'A' ['Z'] = .ok none ∧
    find_routes_by_distance 20 gLoop 'A' 'Z' 10 = some (.ok []) ∧
    (∀ fuel : Nat, find_routes_by_stops fuel gLoop 'A' 'Z' 1 .max = none) ∧
    (∀ fuel : Nat, shortest_route fuel gLoop 'A' 'Z' = none) := by
  refine ⟨rfl, by rfl, ?_, ?_⟩
  · intro fuel
    cases fuel with
    | zero => rfl
    | succ n =>
      have step : find_routes_by_stops (n + 1) gLoop 'A' 'Z' 1 .max =
          (match find_routes_by_stops n gLoop 'A' 'Z' 0 .max with
           | none => none
           | some (.error e) => some (.error e)
           | some (.ok subs) =>
             some (.ok (subs.map (fun pr => ('A' :: pr.1, 1 + pr.2)) ++ []))) := rfl
      rw [step, findStops_gLoop_div n 0 le_rfl]
  · intro fuel
    have h0 : shortest_route fuel gLoop 'A' 'Z' =
        shortestLoop fuel gLoop 'Z' [('A', 'A', 0)] none := rfl
    rw [h0]
    exact shortestLoop_gLoop_div fuel 0

/-! ### C10 — monotonicity of the AtMost result count -/

/-- C10 counterexample: the claim quantifies over every graph and every
station S with an outgoing edge, asserting the result *count* of
`find_routes_by_stops(S, S, n, AtMost)` is monotone in n — presupposing
those counts exist.  On `AB1, BC1, CB1` the station A has an outgoing
edge, yet the search `(A, A, 1, AtMost)` never returns (here: still
unfinished after 1000 recursion levels; `findStops_gCycleBC_top` shows no
fuel suffices), so no result count exists at S = A, n = 1. -/
theorem claimC10_counterexample :
    lookupStation gCycleBC 'A' = some [('B', 1)] ∧
    find_routes_by_stops 1000 gCycleBC 'A' 'A' 1 .max = none :=
  ⟨rfl, findStops_gCycleBC_top 1000⟩

/-! ### Graph well-formedness and walk sums -/

/-- An adjacency dict has no duplicate keys (true of every dict the Python
code can build, since a dict cannot hold a key twice). -/
def adjNodupb : Adj → Bool
  | [] => true
  | (k, _) :: rest => (lookupEdge rest k).isNone && adjNodupb rest

/-- Every inner dict of the graph is duplicate-free. -/
def wfGraphb (g : Graph) : Bool :=
  g.all (fun p => adjNodupb p.2)

/-- Every edge distance in the graph is strictly positive. -/
def posWeightsb (g : Graph) : Bool :=
  g.all (fun p => p.2.all (fun q => decide (0 < q.2)))

/-- Total distance of a station sequence: the sum of the consecutive edge
distances, `none` as soon as a consecutive pair has no edge. -/
def walkSum (g : Graph) : List Station → Option Int
  | a :: b :: rest =>
    match edgeDistance g a b with
    | none => none
    | some w =>
      match walkSum g (b :: rest) with
      | none => none
      | some t => some (w + t)
  | _ => some 0

lemma walkSum_cons (g : Graph) (a b : Station) (rest : List Station) (w t : Int)
    (he : edgeDistance g a b = some w) (ht : walkSum g (b :: rest) = some t) :
    walkSum g (a :: b :: rest) = some (w + t) := by
  simp [walkSum, he, ht]

lemma lookupEdge_isSome_of_mem {l : Adj} {s : Station} {w : Int} (h : (s, w) ∈ l) :
    (lookupEdge l s).isSome := by
  induction l with
  | nil => simp at h
  | cons p t ih =>
    obtain ⟨k, v⟩ := p
    simp only [lookupEdge]
    by_cases hk : k = s
    · simp [hk]
    · rw [if_neg hk]
      rcases List.mem_cons.mp h with he | ht
      · obtain ⟨rfl, rfl⟩ : s = k ∧ w = v := by simpa using he
        exact absurd rfl hk
      · exact ih ht

/-- In a duplicate-free dict, membership determines the lookup. -/
lemma lookupEdge_of_mem {l : Adj} {s : Station} {w : Int} (hnd : adjNodupb l = true)
    (h : (s, w) ∈ l) : lookupEdge l s = some w := by
  induction l with
  | nil => simp at h
  | cons p t ih =>
    obtain ⟨k, v⟩ := p
    simp only [adjNodupb, Bool.and_eq_true] at hnd
    obtain ⟨hk1, hk2⟩ := hnd
    rcases List.mem_cons.mp h with he | ht
    · obtain ⟨rfl, rfl⟩ : s = k ∧ w = v := by simpa using he
      simp [lookupEdge]
    · have hne : k ≠ s := by
        intro hks
        subst hks
        have h1 := lookupEdge_isSome_of_mem ht
        rw [Option.isNone_iff_eq_none.mp hk1] at h1
        simp at h1
      simp only [lookupEdge]
      rw [if_neg hne]
      exact ih hk2 ht

lemma lookupStation_mem {g : Graph} {o : Station} {nbrs : Adj}
    (h : lookupStation g o = some nbrs) : (o, nbrs) ∈ g := by
  induction g with
  | nil => simp [lookupStation] at h
  | cons p t ih =>
    obtain ⟨k, v⟩ := p
    simp only [lookupStation] at h
    by_cases hk : k = o
    · rw [if_pos hk] at h
      subst hk
      obtain rfl : v = nbrs := by simpa using h
      exact List.mem_cons_self _ _
    · rw [if_neg hk] at h
      exact List.mem_cons_of_mem _ (ih h)

/-! ### Inversion of the per-neighbor loops -/

/-- Inversion of one `findStopsGo` step. -/
lemma findStopsGo_cons_inv (rec : Station → Option (Except RailErr RouteList))
    (origin v : Station) (w : Int) (rest : Adj) (r : RouteList)
    (h : findStopsGo rec origin ((v, w) :: rest) = some (.ok r)) :
    ∃ subs rs, rec v = some (.ok subs) ∧ findStopsGo rec origin rest = some (.ok rs) ∧
      r = subs.map (fun pr => (origin :: pr.1, w + pr.2)) ++ rs := by
  simp only [findStopsGo] at h
  cases hr : rec v with
  | none => rw [hr] at h; simp at h
  | some res =>
    cases res with
    | error e => rw [hr] at h; simp at h
    | ok subs =>
      rw [hr] at h
      cases hrest : findStopsGo rec origin rest with
      | none => rw [hrest] at h; simp at h
      | some res2 =>
        cases res2 with
        | error e => rw [hrest] at h; simp at h
        | ok rs =>
          rw [hrest] at h
          refine ⟨subs, rs, rfl, rfl, ?_⟩
          have := h
          simp at this
          exact this.symm

/-- Inversion of one `findDistGo` step. -/
lemma findDistGo_cons_inv (rec : Station → Int → Option (Except RailErr RouteList))
    (o d : Station) (m : Int) (stop : Station) (distance : Int) (rest : Adj) (r : RouteList)
    (h : findDistGo rec o d m ((stop, distance) :: rest) = some (.ok r)) :
    ∃ subs rs, findDistGo rec o d m rest = some (.ok rs) ∧
      ((0 < m - distance ∧ rec stop (m - distance) = some (.ok subs)) ∨
        (¬0 < m - distance ∧ subs = [])) ∧
      r = (if stop = d ∧ distance < m then [([o, stop], distance)] else []) ++
          (subs.map (fun pr => (o :: pr.1, pr.2 + distance)) ++ rs) := by
  simp only [findDistGo] at h
  by_cases hmd : 0 < m - distance
  · rw [if_pos hmd] at h
    cases hr : rec stop (m - distance) with
    | none => rw [hr] at h; simp at h
    | some res =>
      cases res with
      | error e => rw [hr] at h; simp at h
      | ok subs =>
        rw [hr] at h
        cases hrest : findDistGo rec o d m rest with
        | none => rw [hrest] at h; simp at h
        | some res2 =>
          cases res2 with
          | error e => rw [hrest] at h; simp at h
          | ok rs =>
            rw [hrest] at h
            refine ⟨subs, rs, rfl, Or.inl ⟨hmd, rfl⟩, ?_⟩
            have := h
            simp at this
            exact this.symm
  · rw [if_neg hmd] at h
    cases hrest : findDistGo rec o d m rest with
    | none => rw [hrest] at h; simp at h
    | some res2 =>
      cases res2 with
      | error e => rw [hrest] at h; simp at h
      | ok rs =>
        rw [hrest] at h
        refine ⟨[], rs, rfl, Or.inr ⟨hmd, rfl⟩, ?_⟩
        have := h
        simp at this
        exact this.symm

/-! ### C7 — soundness of `find_routes_by_distance` results -/

/-- Every route produced by the neighbor loop starts at the loop's origin,
ends at the destination, carries the sum of its edges as trailing total,
and stays strictly below the budget — given that the recursive calls
already guarantee this and every processed pair is a real edge. -/
lemma findDistGo_sound (g : Graph) (o d : Station) (m : Int)
    (rec : Station → Int → Option (Except RailErr RouteList))
    (hrec : ∀ v m2 r2, rec v m2 = some (.ok r2) → ∀ pr ∈ r2,
      pr.1.head? = some v ∧ pr.1.getLast? = some d ∧
      walkSum g pr.1 = some pr.2 ∧ pr.2 < m2) :
    ∀ (nbrs : Adj), (∀ q ∈ nbrs, edgeDistance g o q.1 = some q.2) →
      ∀ r, findDistGo rec o d m nbrs = some (.ok r) →
      ∀ pr ∈ r, pr.1.head? = some o ∧ pr.1.getLast? = some d ∧
        walkSum g pr.1 = some pr.2 ∧ pr.2 < m := by
  intro nbrs
  induction nbrs with
  | nil =>
    intro _ r h pr hpr
    obtain rfl : ([] : RouteList) = r := by simpa [findDistGo] using h
    simp at hpr
  | cons q rest ihl =>
    obtain ⟨stop, distance⟩ := q
    intro hedge r h pr hpr
    obtain ⟨subs, rs, hrest, hsub, rfl⟩ := findDistGo_cons_inv _ _ _ _ _ _ _ _ h
    have hestop : edgeDistance g o stop = some distance := by
      simpa using hedge (stop, distance) (List.mem_cons_self _ _)
    rcases List.mem_append.mp hpr with hd | hmr
    · by_cases hc : stop = d ∧ distance < m
      · rw [if_pos hc] at hd
        obtain rfl : pr = ([o, stop], distance) := by simpa using hd
        refine ⟨rfl, ?_, ?_, hc.2⟩
        · simp [hc.1]
        · have h0 : walkSum g [stop] = some 0 := rfl
          have := walkSum_cons g o stop [] distance 0 hestop h0
          simpa using this
      · rw [if_neg hc] at hd
        simp at hd
    · rcases List.mem_append.mp hmr with hm | hr2
      · obtain ⟨⟨p2, t2⟩, hmem2, rfl⟩ := List.mem_map.mp hm
        rcases hsub with ⟨hmd, hreceq⟩ | ⟨-, rfl⟩
        · obtain ⟨hh, hl, hw, hb⟩ := hrec stop (m - distance) subs hreceq (p2, t2) hmem2
          cases p2 with
          | nil => simp at hh
          | cons x p2t =>
            have hx : x = stop := by simpa using hh
            rw [hx] at hl hw
            refine ⟨rfl, ?_, ?_, by omega⟩
            · rw [hx, List.getLast?_cons_cons]
              exact hl
            · rw [hx, walkSum_cons g o stop p2t distance t2 hestop hw, Int.add_comm]
        · simp at hmem2
      · exact ihl (fun q hq => hedge q (List.mem_cons_of_mem _ hq)) rs hrest pr hr2

/-- Soundness of `find_routes_by_distance` on graphs whose inner dicts are
duplicate-free (all graphs the code builds): any run that returns produces
only routes from the origin to the destination with the correct trailing
total, strictly below the budget. -/
lemma find_dist_sound (g : Graph) (hg : wfGraphb g = true) (d : Station) :
    ∀ (fuel : Nat) (o : Station) (m : Int) (r : RouteList),
      find_routes_by_distance fuel g o d m = some (.ok r) →
      ∀ pr ∈ r, pr.1.head? = some o ∧ pr.1.getLast? = some d ∧
        walkSum g pr.1 = some pr.2 ∧ pr.2 < m := by
  intro fuel
  induction fuel with
  | zero => intro o m r h; simp [find_routes_by_distance] at h
  | succ n ih =>
    intro o m r h
    cases hs : lookupStation g o with
    | none => simp [find_routes_by_distance, hs] at h
    | some nbrs =>
      rw [find_dist_eq n g o d m nbrs hs] at h
      have hginner : adjNodupb nbrs = true :=
        List.all_eq_true.mp hg _ (lookupStation_mem hs)
      have hedge : ∀ q ∈ nbrs, edgeDistance g o q.1 = some q.2 := by
        intro q hq
        unfold edgeDistance
        rw [hs]
        have hq2 : (q.1, q.2) ∈ nbrs := by simpa using hq
        exact lookupEdge_of_mem hginner hq2
      exact findDistGo_sound g o d m _ (fun v m2 r2 h2 => ih v m2 r2 h2) nbrs hedge r h

/-- C7: every route returned by `find_routes_by_distance` starts at the
origin, ends at the destination, carries as trailing value the sum of its
consecutive edge distances, and that total is strictly below
`max_distance`; and on the reference map the query (C, C, 30) returns
exactly 7 routes. -/
theorem claimC7 :
    (∀ (g : Graph), wfGraphb g = true →
      ∀ (fuel : Nat) (o d : Station) (m : Int) (r : RouteList),
        find_routes_by_distance fuel g o d m = some (.ok r) →
        ∀ pr ∈ r, pr.1.head? = some o ∧ pr.1.getLast? = some d ∧
          walkSum g pr.1 = some pr.2 ∧ pr.2 < m) ∧
    (find_routes_by_distance 40 refMap 'C' 'C' 30).map (Except.map List.length) =
      some (.ok 7) := by
  refine ⟨?_, by rfl⟩
  intro g hg fuel o d m r h pr hpr
  exact find_dist_sound g hg d fuel o m r h pr hpr

/-- C7 witness: the soundness part applied to the concrete run
(C, C, 10) on the reference map, whose single result is the cycle
C→E→B→C of total 9. -/
theorem claimC7_witness :
    (['C', 'E', 'B', 'C'] : List Station).head? = some 'C' ∧
    (['C', 'E', 'B', 'C'] : List Station).getLast? = some 'C' ∧
    walkSum refMap ['C', 'E', 'B', 'C'] = some 9 ∧ (9 : Int) < 10 :=
  claimC7.1 refMap (by rfl) 5 'C' 'C' 10 [(['C', 'E', 'B', 'C'], 9)] (by rfl)
    (['C', 'E', 'B', 'C'], 9) (by simp)

/-! ### C8 — termination of `find_routes_by_distance` -/

/-- The neighbor loop finishes whenever all processed edges are positive
and every recursive call on a smaller, still positive budget finishes. -/
lemma findDistGo_isSome (rec : Station → Int → Option (Except RailErr RouteList))
    (o d : Station) (m : Int)
    (hrec : ∀ v m2, 0 < m2 → m2 + 1 ≤ m → (rec v m2).isSome) :
    ∀ (nbrs : Adj), (∀ q ∈ nbrs, 0 < q.2) → (findDistGo rec o d m nbrs).isSome := by
  intro nbrs
  induction nbrs with
  | nil => intro _; simp [findDistGo]
  | cons q rest ihl =>
    obtain ⟨stop, distance⟩ := q
    intro hpos
    have hdist : 0 < distance := by
      simpa using hpos (stop, distance) (List.mem_cons_self _ _)
    have hrest := ihl (fun q hq => hpos q (List.mem_cons_of_mem _ hq))
    simp only [findDistGo]
    by_cases hmd : 0 < m - distance
    · rw [if_pos hmd]
      have hr := hrec stop (m - distance) hmd (by omega)
      cases hrx : rec stop (m - distance) with
      | none => rw [hrx] at hr; simp at hr
      | some res =>
        cases res with
        | error e => simp [hrx]
        | ok subs =>
          cases hrestx : findDistGo rec o d m rest with
          | none => rw [hrestx] at hrest; simp at hrest
          | some res2 =>
            cases res2 with
            | error e => simp [hrx, hrestx]
            | ok rs => simp [hrx, hrestx]
    · rw [if_neg hmd]
      cases hrestx : findDistGo rec o d m rest with
      | none => rw [hrestx] at hrest; simp at hrest
      | some res2 =>
        cases res2 with
        | error e => simp [hrestx]
        | ok rs => simp [hrestx]

/-- C8: on a graph with strictly positive edge distances,
`find_routes_by_distance` terminates for every origin, destination and
integer budget: a call stack of `max_distance` frames is always enough,
because each recursion strictly shrinks a budget that must stay positive. -/
theorem claimC8 (g : Graph) (o d : Station) (m : Int) (fuel : Nat)
    (hpos : posWeightsb g = true) (hfuel : m.toNat + 1 ≤ fuel) :
    (find_routes_by_distance fuel g o d m).isSome := by
  induction fuel generalizing o m with
  | zero => exact absurd hfuel (by omega)
  | succ n ih =>
    cases hs : lookupStation g o with
    | none => simp [find_routes_by_distance, hs]
    | some nbrs =>
      rw [find_dist_eq n g o d m nbrs hs]
      apply findDistGo_isSome
      · intro v m2 h0 hle
        exact ih v m2 (by omega)
      · intro q hq
        have hall := List.all_eq_true.mp hpos _ (lookupStation_mem hs)
        have := List.all_eq_true.mp hall q hq
        exact of_decide_eq_true this

/-- C8 witness: the reference map has positive distances, so the query
(C, C, 30) finishes within 31 stack frames. -/
theorem claimC8_witness : (find_routes_by_distance 31 refMap 'C' 'C' 30).isSome :=
  claimC8 refMap 'C' 'C' 30 31 (by rfl) (by decide)

/-! ### C10 — monotonicity of the AtMost result count -/

/-- If every recursive call only ever returns the empty result list, so
does the whole neighbor loop. -/
lemma findStopsGo_nil_of (rec : Station → Option (Except RailErr RouteList))
    (origin : Station) (hrec : ∀ v subs, rec v = some (.ok subs) → subs = []) :
    ∀ (nbrs : Adj) (r : RouteList),
      findStopsGo rec origin nbrs = some (.ok r) → r = [] := by
  intro nbrs
  induction nbrs with
  | nil =>
    intro r h
    obtain rfl : ([] : RouteList) = r := by simpa [findStopsGo] using h
    rfl
  | cons q rest ihl =>
    obtain ⟨v, w⟩ := q
    intro r h
    obtain ⟨subs, rs, hv, hrest, rfl⟩ := findStopsGo_cons_inv _ _ _ _ _ _ h
    rw [hrec v subs hv, ihl rs hrest]
    rfl

/-- With a non-positive stop budget, an AtMost search that terminates
returns no routes: the acceptance test `stops >= 1` can never fire again. -/
lemma find_stops_nonpos_nil (g : Graph) (d : Station) :
    ∀ (fuel : Nat) (o : Station) (s : Int), s ≤ 0 →
      ∀ r, find_routes_by_stops fuel g o d s .max = some (.ok r) → r = [] := by
  intro fuel
  induction fuel with
  | zero => intro o s hs r h; simp [find_routes_by_stops] at h
  | succ n ih =>
    intro o s hs r h
    cases hsl : lookupStation g o with
    | none => simp [find_routes_by_stops, hsl] at h
    | some nbrs =>
      rw [find_stops_eq n g o d s .max nbrs hsl] at h
      rw [if_neg (by
        rintro (⟨-, h1⟩ | ⟨h2, -⟩)
        exacts [absurd h1 (by omega), FindMode.noConfusion h2])] at h
      unfold findStopsRest at h
      by_cases hc : s ≠ 1 ∧ nbrs = []
      · rw [if_pos hc] at h
        have : ([] : RouteList) = r := by simpa using h
        exact this.symm
      · rw [if_neg hc] at h
        exact findStopsGo_nil_of _ _ (fun v subs hv => ih v (s - 1) (by omega) subs hv)
          nbrs r h

/-- Pointwise monotonicity lifts through the neighbor loop: the results
concatenate per neighbor and prepending does not change counts. -/
lemma findStopsGo_mono (rec1 rec2 : Station → Option (Except RailErr RouteList))
    (origin : Station)
    (hpt : ∀ v s1 s2, rec1 v = some (.ok s1) → rec2 v = some (.ok s2) →
      s1.length ≤ s2.length) :
    ∀ (nbrs : Adj) (r1 r2 : RouteList),
      findStopsGo rec1 origin nbrs = some (.ok r1) →
      findStopsGo rec2 origin nbrs = some (.ok r2) →
      r1.length ≤ r2.length := by
  intro nbrs
  induction nbrs with
  | nil =>
    intro r1 r2 h1 h2
    obtain rfl : ([] : RouteList) = r1 := by simpa [findStopsGo] using h1
    simp
  | cons q rest ihl =>
    obtain ⟨v, w⟩ := q
    intro r1 r2 h1 h2
    obtain ⟨subs1, rs1, hv1, hrest1, rfl⟩ := findStopsGo_cons_inv _ _ _ _ _ _ h1
    obtain ⟨subs2, rs2, hv2, hrest2, rfl⟩ := findStopsGo_cons_inv _ _ _ _ _ _ h2
    have hsub := hpt v subs1 subs2 hv1 hv2
    have hrest := ihl rs1 rs2 hrest1 hrest2
    simp only [List.length_append, List.length_map]
    omega

/-- C10 (amended): whenever the AtMost search returns at stop bound `n`
and at stop bound `n + 1` (it can instead run forever, see the
counterexample), the result count at `n + 1` is at least the count at `n`
— for every graph and every origin/destination pair, in particular for
S back to S. -/
theorem claimC10 : ∀ (fuel1 : Nat) (g : Graph) (o d : Station) (n : Int) (r1 : RouteList)
    (fuel2 : Nat) (r2 : RouteList),
    find_routes_by_stops fuel1 g o d n .max = some (.ok r1) →
    find_routes_by_stops fuel2 g o d (n + 1) .max = some (.ok r2) →
    r1.length ≤ r2.length := by
  intro fuel1
  induction fuel1 with
  | zero => intro g o d n r1 fuel2 r2 h1 h2; simp [find_routes_by_stops] at h1
  | succ f1 ih =>
    intro g o d n r1 fuel2 r2 h1 h2
    by_cases hn : n ≤ 0
    · rw [find_stops_nonpos_nil g d (f1 + 1) o n hn r1 h1]
      simp
    · push_neg at hn
      cases fuel2 with
      | zero => simp [find_routes_by_stops] at h2
      | succ f2 =>
        cases hsl : lookupStation g o with
        | none => simp [find_routes_by_stops, hsl] at h1
        | some nbrs =>
          rw [find_stops_eq f1 g o d n .max nbrs hsl] at h1
          rw [find_stops_eq f2 g o d (n + 1) .max nbrs hsl] at h2
          rw [if_pos (Or.inl ⟨rfl, by omega⟩)] at h1
          rw [if_pos (Or.inl ⟨rfl, by omega⟩)] at h2
          cases he : lookupEdge nbrs d with
          | some w =>
            rw [he] at h1 h2
            obtain rfl : [([o, d], w)] = r1 := by simpa using h1
            obtain rfl : [([o, d], w)] = r2 := by simpa using h2
            simp
          | none =>
            rw [he] at h1 h2
            rw [if_neg (fun hh => FindMode.noConfusion hh)] at h1 h2
            unfold findStopsRest at h1 h2
            by_cases hc1 : n ≠ 1 ∧ nbrs = []
            · rw [if_pos hc1] at h1
              obtain rfl : ([] : RouteList) = r1 := by simpa using h1
              simp
            · rw [if_neg hc1] at h1
              by_cases hc2 : n + 1 ≠ 1 ∧ nbrs = []
              · obtain ⟨-, hnb⟩ := hc2
                subst hnb
                obtain rfl : ([] : RouteList) = r1 := by simpa [findStopsGo] using h1
                simp
              · rw [if_neg hc2] at h2
                refine findStopsGo_mono _ _ o ?_ nbrs r1 r2 h1 h2
                intro v s1 s2 hv1 hv2
                have heq : n + 1 - 1 = (n - 1) + 1 := by ring
                rw [heq] at hv2
                exact ih g v d (n - 1) s1 f2 s2 hv1 hv2

/-- C10 witness: on the reference map the counts of `(C, C, 3, AtMost)`
and `(C, C, 4, AtMost)` are both 2, and 2 ≤ 2. -/
theorem claimC10_witness :
    ([(['C', 'D', 'C'], 16), (['C', 'E', 'B', 'C'], 9)] : RouteList).length ≤
      ([(['C', 'D', 'C'], 16), (['C', 'E', 'B', 'C'], 9)] : RouteList).length :=
  claimC10 10 refMap 'C' 'C' 3 [(['C', 'D', 'C'], 16), (['C', 'E', 'B', 'C'], 9)]
    10 [(['C', 'D', 'C'], 16), (['C', 'E', 'B', 'C'], 9)] (by rfl) (by rfl)
